import Mathlib

/-!
Verification development for a React Query demo application.

The repository renders a banner, a user selector and a posts list, fetching
user records and posts over HTTP and caching the results.  The actual
cache-coordination logic (deduplication of in-flight fetches, cache entries,
settle-on-success/failure) lives in the third-party caching library; the
specification describes it as a standalone QueryCoordinator over a CacheStore
and an InFlightRegistry, and that part is modelled here from the spec.  The
fetchers (`fetchUser`, `fetchPosts`), the URL construction, the `hasPosts`
render guard and the `CacheStatus` component are embedded directly from the
repository's source.
-/

namespace ReactQueryDemo

namespace Coordinator

/-- Modelled from the spec: a ResourceKey is an ordered sequence of
serializable values compared by structural equality (e.g. `["user", "1"]`,
`["posts"]`). -/
abbrev ResourceKey := List String

/-- A caller identity, used to record which requesters are attached to a
pending operation and which notifications were delivered. -/
abbrev Caller := Nat

/-- Modelled from the spec: the status field of a CacheEntry. -/
inductive Status where
  | idle
  | fetching
  | success
  | error
deriving DecidableEq

/-- Modelled from the spec: CacheEntry is
`{ data, fetchedAt, status, error }` (the key is the map index). -/
structure CacheEntry (α ε : Type) where
  data : Option α
  fetchedAt : Option Nat
  status : Status
  error : Option ε
deriving DecidableEq

/-- The empty/Idle entry returned for a key that has no cache entry. -/
def emptyEntry {α ε : Type} : CacheEntry α ε :=
  ⟨none, none, Status.idle, none⟩

/-- Modelled from the spec: the QueryCoordinator's state.  `cache` is the
CacheStore (key to entry map), `inflight` is the InFlightRegistry (at most one
pending-operation handle per key, carrying its attached callers),
`fetchCount` counts RemoteDataSource.fetch invocations per key, and
`delivered` records every notification delivered to a caller. -/
structure CoordState (α ε : Type) where
  cache : ResourceKey → Option (CacheEntry α ε)
  inflight : ResourceKey → Option (List Caller)
  fetchCount : ResourceKey → Nat
  delivered : List (Caller × ResourceKey × CacheEntry α ε)

/-- Options accepted by `request`: `enabled` and `forceRefetch`. -/
structure ReqOptions where
  enabled : Bool
  forceRefetch : Bool

/-- Pointwise update of a key-indexed map. -/
def updateFn {β : Type} (f : ResourceKey → β) (k : ResourceKey) (v : β) :
    ResourceKey → β :=
  fun k2 => if k2 = k then v else f k2

/-- CacheStore.get: pure lookup, no side effects. -/
def get {α ε : Type} (s : CoordState α ε) (k : ResourceKey) :
    Option (CacheEntry α ε) :=
  s.cache k

/-- Modelled from the spec: step 3 of the request algorithm.  Mark the
entry's status Fetching (preserving any existing data), register a fresh
in-flight handle with the requesting caller attached, and invoke
RemoteDataSource.fetch (counted in `fetchCount`). -/
def startFetch {α ε : Type} (s : CoordState α ε) (c : Caller)
    (k : ResourceKey) : CoordState α ε × CacheEntry α ε :=
  let e := { (get s k).getD emptyEntry with status := Status.fetching }
  ({ s with
      cache := updateFn s.cache k (some e),
      inflight := updateFn s.inflight k (some [c]),
      fetchCount := updateFn s.fetchCount k (s.fetchCount k + 1) }, e)

/-- Modelled from the spec: `QueryCoordinator.request(key, options)`.
Step 1: with `enabled` false and no `forceRefetch`, return the current cache
entry (or an empty/Idle one) without side effects.  Step 2: if a pending
operation exists, attach the caller to it (also for a forced refetch, per the
manual-refetch rule) instead of fetching again.  Otherwise serve a
cache hit (status Success, no forceRefetch) from the store, and in the
remaining cases start a fetch. -/
def request {α ε : Type} (s : CoordState α ε) (c : Caller) (k : ResourceKey)
    (o : ReqOptions) : CoordState α ε × CacheEntry α ε :=
  if !o.enabled && !o.forceRefetch then
    (s, (get s k).getD emptyEntry)
  else
    match s.inflight k with
    | some cs =>
        ({ s with inflight := updateFn s.inflight k (some (cs ++ [c])) },
          (get s k).getD emptyEntry)
    | none =>
        match get s k, o.forceRefetch with
        | some e, false =>
            if e.status = Status.success then (s, e) else startFetch s c k
        | some _, true => startFetch s c k
        | none, _ => startFetch s c k

/-- Modelled from the spec: settling a fetch successfully writes
`CacheEntry{status: Success, data: result, fetchedAt: now, error: none}`,
removes the in-flight handle, and notifies every attached caller with the
new entry. -/
def settleSuccess {α ε : Type} (s : CoordState α ε) (k : ResourceKey)
    (result : α) (now : Nat) : CoordState α ε :=
  match s.inflight k with
  | none => s
  | some cs =>
      let e : CacheEntry α ε := ⟨some result, some now, Status.success, none⟩
      { s with
          cache := updateFn s.cache k (some e),
          inflight := updateFn s.inflight k none,
          delivered := s.delivered ++ cs.map (fun c => (c, k, e)) }

/-- Modelled from the spec: settling a fetch with a failure writes
`CacheEntry{status: Error, data: unchanged, error: failure}`, removes the
in-flight handle, and notifies every attached caller. -/
def settleFailure {α ε : Type} (s : CoordState α ε) (k : ResourceKey)
    (err : ε) : CoordState α ε :=
  match s.inflight k with
  | none => s
  | some cs =>
      let e : CacheEntry α ε :=
        { (get s k).getD emptyEntry with
            status := Status.error, error := some err }
      { s with
          cache := updateFn s.cache k (some e),
          inflight := updateFn s.inflight k none,
          delivered := s.delivered ++ cs.map (fun c => (c, k, e)) }

/-- A batch of concurrent `request` calls for the same key
(enabled, no forceRefetch), interleaved before the fetch settles, in the
single-threaded cooperative model. -/
def runRequests {α ε : Type} (s : CoordState α ε) (cs : List Caller)
    (k : ResourceKey) : CoordState α ε :=
  cs.foldl (fun s2 c => (request s2 c k ⟨true, false⟩).1) s

end Coordinator

namespace Api

/-- An HTTP response as the fetchers see it: a status code and an
already-decoded JSON body (`response.json()` is treated as the decode of the
transport's body; the source performs no validation on it). -/
structure HttpResponse (β : Type) where
  status : Nat
  body : β

/-- `response.ok` of the fetch API: true exactly for a 2xx status. -/
def HttpResponse.ok {β : Type} (r : HttpResponse β) : Bool :=
  decide (200 ≤ r.status) && decide (r.status ≤ 299)

/-- The `Post` interface of `FetchDataReactQuery.tsx`. -/
structure Post where
  userId : Nat
  id : Nat
  title : String
  body : String
deriving DecidableEq

/-- The `User` interface of the user API module: `fetchedAt` is a server
timestamp string. -/
structure User where
  id : Nat
  name : String
  email : String
  fetchedAt : String
deriving DecidableEq

/-- The host environment's date facilities used by `fetchUser`:
`parse s` models `new Date(s).getTime()`, returning `none` exactly when the
result is NaN (an invalid date), and `toLocaleTimeString` models formatting a
valid timestamp as a local time string. -/
structure DateEnv where
  parse : String → Option Int
  toLocaleTimeString : Int → String

/-- `fetchPosts` from `FetchDataReactQuery.tsx`: throw
`Error("Failed to fetch data")` when the response is not ok, otherwise
return the decoded body. -/
def fetchPosts (resp : HttpResponse (List Post)) : Except String (List Post) :=
  if !resp.ok then Except.error "Failed to fetch data"
  else Except.ok resp.body

/-- `fetchUser` from the user API module: throw
`Error("Failed to fetch user")` when the response is not ok; otherwise, when
`data.fetchedAt` is truthy (non-empty), convert it with `new Date`: a valid
date is replaced by its locale time string, an invalid one is warned about
(the Bool in the result) and passed through unmodified.  The decoded record
is returned in all ok cases. -/
def fetchUser (env : DateEnv) (userId : Nat) (resp : HttpResponse User) :
    Except String (User × Bool) :=
  if !resp.ok then Except.error "Failed to fetch user"
  else
    let data := resp.body
    if data.fetchedAt = "" then Except.ok (data, false)
    else
      match env.parse data.fetchedAt with
      | some t => Except.ok ({ data with fetchedAt := env.toLocaleTimeString t }, false)
      | none => Except.ok (data, true)

/-- Whether an `Except` result is a success (the call did not throw). -/
def isOkExcept {β : Type} : Except String β → Bool
  | Except.ok _ => true
  | Except.error _ => false

/-- The `fetchedAt` post-processing performed by `fetchUser` on an ok
response, as a standalone function: the resulting string and whether a
warning was logged. -/
def processFetchedAt (env : DateEnv) (s : String) : String × Bool :=
  if s = "" then (s, false)
  else
    match env.parse s with
    | some t => (env.toLocaleTimeString t, false)
    | none => (s, true)

/-- `import.meta.env.VITE_API_URL || "http://localhost:3000"` in `fetchUser`:
the JS `||` falls back to the default when the variable is unset or empty. -/
def resolveApiUrl (viteApiUrl : Option String) : String :=
  match viteApiUrl with
  | some s => if s = "" then "http://localhost:3000" else s
  | none => "http://localhost:3000"

/-- The URL `fetchUser` requests: `{apiUrl}/api/user/{userId}`. -/
def userApiUrl (viteApiUrl : Option String) (userId : Nat) : String :=
  resolveApiUrl viteApiUrl ++ "/api/user/" ++ toString userId

/-- The URL `fetchPosts` requests.  The source passes the literal
`"http://localhost:3000/api/posts"` to `fetch`; the environment parameter is
carried to state how the URL depends on the configuration (it does not). -/
def postsApiUrl (viteApiUrl : Option String) : String :=
  "http://localhost:3000/api/posts"

end Api

namespace View

open Coordinator

/-- Modelled from the spec: the Presentation Adapter's `isFetching` flag for
a key, true exactly while that key's cache entry has status Fetching. -/
def isFetching {α ε : Type} (s : CoordState α ε) (k : ResourceKey) : Bool :=
  decide (((get s k).getD emptyEntry).status = Status.fetching)

/-- What the `CacheStatus` component renders. -/
inductive Indicator where
  | fetchingFresh
  | servedFromCache
deriving DecidableEq

/-- The `CacheStatus` component: the fetching indicator when `isFetching` is
true, the served-from-cache indicator otherwise. -/
def CacheStatus (isF : Bool) : Indicator :=
  if isF then Indicator.fetchingFresh else Indicator.servedFromCache

/-- `hasPosts` from `FetchDataReactQuery.tsx`: `data && data.length > 0`
(`data` is undefined before the first successful fetch). -/
def hasPosts (data : Option (List Api.Post)) : Bool :=
  match data with
  | none => false
  | some l => decide (l.length > 0)

/-- The posts section of `FetchDataReactQuery`: the count header and the
per-post cards. -/
structure PostsSection where
  count : Nat
  cards : List Api.Post
deriving DecidableEq

/-- The conditional render `{hasPosts && (...)}`: the posts section is
rendered only when `hasPosts` holds, with the count header `data.length` and
one card per post. -/
def renderPostsSection (data : Option (List Api.Post)) :
    Option PostsSection :=
  if hasPosts data then some ⟨(data.getD []).length, data.getD []⟩ else none

end View

/-! Helper lemmas and concrete states -/

namespace Coordinator

/-- The entry written on a successful settle, per the spec:
status Success, the fetched result, the write time, no error. -/
def successEntry {α ε : Type} (v : α) (now : Nat) : CacheEntry α ε :=
  ⟨some v, some now, Status.success, none⟩

theorem updateFn_self {β : Type} (f : ResourceKey → β) (k : ResourceKey)
    (v : β) : updateFn f k v k = v := by
  simp [updateFn]

theorem runRequests_attach {α ε : Type} (k : ResourceKey) (cs : List Caller) :
    ∀ (s : CoordState α ε) (l : List Caller), s.inflight k = some l →
      (runRequests s cs k).inflight k = some (l ++ cs) ∧
      (runRequests s cs k).cache = s.cache ∧
      (runRequests s cs k).fetchCount = s.fetchCount ∧
      (runRequests s cs k).delivered = s.delivered := by
  induction cs with
  | nil =>
      intro s l h
      simpa [runRequests] using h
  | cons c cs ih =>
      intro s l h
      have hreq : (request s c k ⟨true, false⟩).1 =
          { s with inflight := updateFn s.inflight k (some (l ++ [c])) } := by
        simp [request, h]
      have hrun : runRequests s (c :: cs) k =
          runRequests ({ s with
            inflight := updateFn s.inflight k (some (l ++ [c])) }) cs k := by
        show runRequests ((request s c k ⟨true, false⟩).1) cs k = _
        rw [hreq]
      rcases ih ({ s with inflight := updateFn s.inflight k (some (l ++ [c])) })
          (l ++ [c]) (updateFn_self _ _ _) with ⟨h1, h2, h3, h4⟩
      rw [hrun]
      refine ⟨?_, ?_, ?_, ?_⟩
      · rw [h1]; simp
      · rw [h2]
      · rw [h3]
      · rw [h4]

/-- A concrete empty coordinator state over Nat payloads. -/
def s0nat : CoordState Nat Unit :=
  ⟨fun _ => none, fun _ => none, fun _ => 0, []⟩

/-- A concrete state holding a prior successful entry for key
`["user", "1"]` and nothing in flight. -/
def sPrior : CoordState Nat Unit :=
  ⟨fun k => if k = ["user", "1"] then some ⟨some 7, some 1, Status.success, none⟩ else none,
   fun _ => none, fun _ => 0, []⟩

/-- A concrete state with one pending operation for key `["user", "1"]`
with caller 3 attached. -/
def sInflight : CoordState Nat Unit :=
  ⟨fun _ => none,
   fun k => if k = ["user", "1"] then some [3] else none,
   fun _ => 0, []⟩

end Coordinator

/-! Claim theorems -/

open Coordinator in
/-- Claim C1: for every key, while a fetch for that key is in flight there is
at most one outstanding network fetch for that key: N concurrent
`request(key)` calls (enabled, forceRefetch false, no existing cache entry,
nothing yet in flight) cause exactly one RemoteDataSource.fetch invocation,
and after the fetch settles every one of the N callers has been notified
with the identical settled cache entry. -/
theorem c1_inflight_dedupe {α ε : Type} (cs : List Caller) (hne : cs ≠ [])
    (s0 : CoordState α ε) (k : ResourceKey)
    (hc : s0.cache k = none) (hi : s0.inflight k = none)
    (hf : s0.fetchCount k = 0) (v : α) (now : Nat) :
    (runRequests s0 cs k).fetchCount k = 1 ∧
    (runRequests s0 cs k).inflight k = some cs ∧
    (settleSuccess (runRequests s0 cs k) k v now).fetchCount k = 1 ∧
    (settleSuccess (runRequests s0 cs k) k v now).delivered =
      s0.delivered ++ cs.map (fun c => (c, k, successEntry (ε := ε) v now)) ∧
    ∀ c ∈ cs, (c, k, successEntry (ε := ε) v now) ∈
      (settleSuccess (runRequests s0 cs k) k v now).delivered := by
  cases cs with
  | nil => exact absurd rfl hne
  | cons c0 rest =>
      have hreq : (request s0 c0 k ⟨true, false⟩).1 =
          { s0 with
              cache := updateFn s0.cache k (some ⟨none, none, Status.fetching, none⟩),
              inflight := updateFn s0.inflight k (some [c0]),
              fetchCount := updateFn s0.fetchCount k (s0.fetchCount k + 1) } := by
        simp [request, hi, Coordinator.get, hc, startFetch, emptyEntry]
      have hrun : runRequests s0 (c0 :: rest) k =
          runRequests ({ s0 with
              cache := updateFn s0.cache k (some ⟨none, none, Status.fetching, none⟩),
              inflight := updateFn s0.inflight k (some [c0]),
              fetchCount := updateFn s0.fetchCount k (s0.fetchCount k + 1) }) rest k := by
        show runRequests ((request s0 c0 k ⟨true, false⟩).1) rest k = _
        rw [hreq]
      rcases runRequests_attach k rest
          ({ s0 with
              cache := updateFn s0.cache k (some ⟨none, none, Status.fetching, none⟩),
              inflight := updateFn s0.inflight k (some [c0]),
              fetchCount := updateFn s0.fetchCount k (s0.fetchCount k + 1) })
          [c0] (updateFn_self _ _ _) with ⟨h1, h2, h3, h4⟩
      have hNi : (runRequests s0 (c0 :: rest) k).inflight k = some (c0 :: rest) := by
        rw [hrun, h1]; simp
      have hNf : (runRequests s0 (c0 :: rest) k).fetchCount k = 1 := by
        rw [hrun]
        have := congrFun h3 k
        rw [this]
        simp [updateFn, hf]
      have hNd : (runRequests s0 (c0 :: rest) k).delivered = s0.delivered := by
        rw [hrun, h4]
      have hset : settleSuccess (runRequests s0 (c0 :: rest) k) k v now =
          { runRequests s0 (c0 :: rest) k with
              cache := updateFn (runRequests s0 (c0 :: rest) k).cache k
                (some (successEntry v now)),
              inflight := updateFn (runRequests s0 (c0 :: rest) k).inflight k none,
              delivered := (runRequests s0 (c0 :: rest) k).delivered ++
                (c0 :: rest).map (fun c => (c, k, successEntry v now)) } := by
        simp [settleSuccess, hNi, successEntry]
      refine ⟨hNf, hNi, ?_, ?_, ?_⟩
      · rw [hset]; exact hNf
      · rw [hset]
        show (runRequests s0 (c0 :: rest) k).delivered ++ _ = _
        rw [hNd]
      · intro c hcmem
        rw [hset]
        show _ ∈ (runRequests s0 (c0 :: rest) k).delivered ++ _
        exact List.mem_append_right _ (List.mem_map_of_mem _ hcmem)

open Coordinator in
/-- Claim C1 witness: three concurrent requests for `["posts"]` on the empty
state trigger exactly one fetch, and all three callers are notified with the
settled Success entry. -/
theorem c1_inflight_dedupe_witness :
    (runRequests s0nat [7, 8, 9] ["posts"]).fetchCount ["posts"] = 1 ∧
    (runRequests s0nat [7, 8, 9] ["posts"]).inflight ["posts"] = some [7, 8, 9] ∧
    (settleSuccess (runRequests s0nat [7, 8, 9] ["posts"]) ["posts"] 42 5).fetchCount ["posts"] = 1 ∧
    (settleSuccess (runRequests s0nat [7, 8, 9] ["posts"]) ["posts"] 42 5).delivered =
      s0nat.delivered ++ [7, 8, 9].map (fun c => (c, ["posts"], successEntry (ε := Unit) 42 5)) ∧
    ∀ c ∈ [7, 8, 9], (c, ["posts"], successEntry (ε := Unit) 42 5) ∈
      (settleSuccess (runRequests s0nat [7, 8, 9] ["posts"]) ["posts"] 42 5).delivered :=
  c1_inflight_dedupe [7, 8, 9] (by decide) s0nat ["posts"] rfl rfl rfl 42 5

open Coordinator in
/-- Claim C2 counterexample: the claim says calling `request` with
`enabled:false` never produces a network call and never mutates the
CacheStore, but a call with `enabled:false` and `forceRefetch:true` (a
manual `refetch()`) on an empty store invokes RemoteDataSource.fetch once
and writes a Fetching entry. -/
theorem c2_enabled_false_counterexample :
    (request s0nat 0 ["posts"] ⟨false, true⟩).1.fetchCount ["posts"] = 1 ∧
    (request s0nat 0 ["posts"] ⟨false, true⟩).1.cache ["posts"] ≠
      s0nat.cache ["posts"] := by
  constructor
  · rfl
  · decide

open Coordinator in
/-- Claim C2 (amended): for every key, calling `request` with
`enabled:false` and `forceRefetch:false` produces no network call, leaves
the coordinator state (in particular the CacheStore) completely unmutated,
and returns the current cached entry, or the empty/Idle entry if none
exists. -/
theorem c2_enabled_false_noop {α ε : Type} (s : CoordState α ε) (c : Caller)
    (k : ResourceKey) :
    request s c k ⟨false, false⟩ =
      (s, (Coordinator.get s k).getD emptyEntry) := rfl

open Coordinator in
/-- Claim C3: a fetch that fails after a prior successful fetch for the same
key leaves a cache entry with status Error and a populated error value whose
data field is unchanged from the value held before the fetch started. -/
theorem c3_error_preserves_stale {α ε : Type} (s : CoordState α ε)
    (c : Caller) (k : ResourceKey) (e : CacheEntry α ε) (d : α) (err : ε)
    (hi : s.inflight k = none) (hc : s.cache k = some e)
    (hs : e.status = Status.success) (hd : e.data = some d) :
    (settleFailure (request s c k ⟨true, true⟩).1 k err).cache k =
      some ⟨some d, e.fetchedAt, Status.error, some err⟩ ∧
    (settleFailure (request s c k ⟨true, true⟩).1 k err).inflight k = none := by
  obtain ⟨edata, efet, est, eerr⟩ := e
  simp only [CacheEntry.data] at hd
  subst hd
  have hreq : (request s c k ⟨true, true⟩).1 =
      { s with
          cache := updateFn s.cache k
            (some ⟨some d, efet, Status.fetching, eerr⟩),
          inflight := updateFn s.inflight k (some [c]),
          fetchCount := updateFn s.fetchCount k (s.fetchCount k + 1) } := by
    simp [request, hi, Coordinator.get, hc, startFetch]
  rw [hreq]
  constructor
  · simp [settleFailure, Coordinator.get, updateFn]
  · simp [settleFailure, Coordinator.get, updateFn]

open Coordinator in
/-- Claim C3 witness: with a prior Success entry `data = 7` for
`["user", "1"]`, a forced refetch that fails yields an Error entry carrying
the error while `data` is still 7. -/
theorem c3_error_preserves_stale_witness :
    (settleFailure (request sPrior 4 ["user", "1"] ⟨true, true⟩).1
        ["user", "1"] ()).cache ["user", "1"] =
      some ⟨some 7, some 1, Status.error, some ()⟩ ∧
    (settleFailure (request sPrior 4 ["user", "1"] ⟨true, true⟩).1
        ["user", "1"] ()).inflight ["user", "1"] = none :=
  c3_error_preserves_stale sPrior 4 ["user", "1"]
    ⟨some 7, some 1, Status.success, none⟩ 7 () rfl (by decide) rfl rfl

open Coordinator in
/-- Claim C8: after a fetch settles successfully, `get(key)` returns an
entry with status Success, data equal to the value RemoteDataSource
produced, error absent, and fetchedAt set to the time of the write; the
in-flight handle for the key is removed. -/
theorem c8_success_roundtrip {α ε : Type} (s : CoordState α ε)
    (k : ResourceKey) (cs : List Caller) (v : α) (now : Nat)
    (hi : s.inflight k = some cs) :
    Coordinator.get (settleSuccess s k v now) k = some (successEntry v now) ∧
    (settleSuccess s k v now).inflight k = none := by
  constructor
  · simp [settleSuccess, hi, Coordinator.get, updateFn, successEntry]
  · simp [settleSuccess, hi, updateFn]

open Coordinator in
/-- Claim C8 witness: settling the pending fetch for `["user", "1"]` with
value 42 at time 5 makes `get` return the Success entry `(42, 5)`. -/
theorem c8_success_roundtrip_witness :
    Coordinator.get (settleSuccess sInflight ["user", "1"] 42 5) ["user", "1"] =
      some (successEntry 42 5) ∧
    (settleSuccess sInflight ["user", "1"] 42 5).inflight ["user", "1"] = none :=
  c8_success_roundtrip sInflight ["user", "1"] [3] 42 5 (by decide)

/-- A concrete date environment consistent with the JS host: exactly the
ISO string below parses to a timestamp, and valid timestamps format to a
locale time-of-day string. -/
def dateEnv0 : Api.DateEnv :=
  ⟨fun s => if s = "2024-01-01T12:00:00.000Z" then some 1704110400 else none,
   fun _ => "1:00:00 PM"⟩

/-- A 2xx user response whose `fetchedAt` is a valid ISO timestamp. -/
def userRespValid : Api.HttpResponse Api.User :=
  ⟨200, ⟨1, "Leanne Graham", "leanne@example.com", "2024-01-01T12:00:00.000Z"⟩⟩

/-- A 2xx user response (status 201) with a valid ISO timestamp. -/
def userRespC6 : Api.HttpResponse Api.User :=
  ⟨201, ⟨2, "Ervin Howell", "ervin@example.com", "2024-01-01T12:00:00.000Z"⟩⟩

/-- A 2xx user response whose `fetchedAt` is the empty string. -/
def userRespEmptyTs : Api.HttpResponse Api.User :=
  ⟨200, ⟨3, "Clementine Bauch", "clem@example.com", ""⟩⟩

/-- A 2xx user response whose `fetchedAt` does not parse as a date. -/
def userRespBadTs : Api.HttpResponse Api.User :=
  ⟨200, ⟨4, "Patricia Lebsack", "pat@example.com", "not-a-date"⟩⟩

/-- A 2xx posts response with one post. -/
def postsResp0 : Api.HttpResponse (List Api.Post) :=
  ⟨200, [⟨1, 1, "title one", "body one"⟩]⟩

/-- A non-2xx posts response. -/
def postsResp500 : Api.HttpResponse (List Api.Post) := ⟨500, []⟩

/-- Claim C4 counterexample: the claim says that on a 2xx response the
fetcher returns the decoded JSON body; on a 2xx user response whose
`fetchedAt` parses as a valid date, `fetchUser` instead returns the body
with `fetchedAt` rewritten to a locale time string, which differs from the
decoded body. -/
theorem c4_counterexample :
    userRespValid.ok = true ∧
    Api.fetchUser dateEnv0 1 userRespValid =
      Except.ok ({ userRespValid.body with fetchedAt := "1:00:00 PM" }, false) ∧
    ({ userRespValid.body with fetchedAt := "1:00:00 PM" } : Api.User) ≠
      userRespValid.body := by
  refine ⟨rfl, rfl, ?_⟩
  decide

/-- Claim C4 (amended): the fetchers throw an error if and only if the HTTP
response is non-2xx (`response.ok` false); on a 2xx response `fetchPosts`
returns the decoded JSON body without throwing, and `fetchUser` returns the
decoded body without throwing except that its `fetchedAt` field is
post-processed (converted to a locale time string when it parses as a valid
date, passed through otherwise). -/
theorem c4_throw_iff_not_ok (env : Api.DateEnv) (uid : Nat)
    (ru : Api.HttpResponse Api.User) (rp : Api.HttpResponse (List Api.Post)) :
    (Api.isOkExcept (Api.fetchUser env uid ru) = ru.ok) ∧
    (Api.isOkExcept (Api.fetchPosts rp) = rp.ok) ∧
    (rp.ok = true → Api.fetchPosts rp = Except.ok rp.body) ∧
    (ru.ok = true →
      Api.fetchUser env uid ru =
        Except.ok
          ({ ru.body with
              fetchedAt := (Api.processFetchedAt env ru.body.fetchedAt).1 },
            (Api.processFetchedAt env ru.body.fetchedAt).2)) := by
  refine ⟨?_, ?_, ?_, ?_⟩
  · cases hok : ru.ok with
    | false => simp [Api.fetchUser, hok, Api.isOkExcept]
    | true =>
        simp only [Api.fetchUser, hok, Bool.not_true, Bool.false_eq_true,
          if_false]
        by_cases he : ru.body.fetchedAt = ""
        · simp [he, Api.isOkExcept]
        · cases hp : env.parse ru.body.fetchedAt <;>
            simp [he, hp, Api.isOkExcept]
  · cases hok : rp.ok <;> simp [Api.fetchPosts, hok, Api.isOkExcept]
  · intro hok
    simp [Api.fetchPosts, hok]
  · intro hok
    obtain ⟨st, ⟨bid, bname, bemail, bfet⟩⟩ := ru
    simp only [Api.fetchUser, hok, Bool.not_true, Bool.false_eq_true,
      if_false]
    by_cases he : bfet = ""
    · simp [he, Api.processFetchedAt]
    · cases hp : env.parse bfet <;>
        simp [he, hp, Api.processFetchedAt]

/-- Claim C4 witness: concrete 2xx responses return ok results matching the
amended description, and a 500 posts response throws. -/
theorem c4_throw_iff_not_ok_witness :
    Api.fetchPosts postsResp0 = Except.ok postsResp0.body ∧
    Api.fetchUser dateEnv0 1 userRespValid =
      Except.ok
        ({ userRespValid.body with
            fetchedAt := (Api.processFetchedAt dateEnv0 userRespValid.body.fetchedAt).1 },
          (Api.processFetchedAt dateEnv0 userRespValid.body.fetchedAt).2) ∧
    Api.isOkExcept (Api.fetchPosts postsResp500) = postsResp500.ok :=
  ⟨(c4_throw_iff_not_ok dateEnv0 1 userRespValid postsResp0).2.2.1 rfl,
   (c4_throw_iff_not_ok dateEnv0 1 userRespValid postsResp0).2.2.2 rfl,
   (c4_throw_iff_not_ok dateEnv0 1 userRespValid postsResp500).2.1⟩

/-- Claim C5 counterexample: the claim says every request's base URL is
taken from the environment configuration; with the configuration set to
`https://api.example.com`, the posts request still targets the hardcoded
`http://localhost:3000/api/posts`, not the configured base. -/
theorem c5_counterexample :
    Api.postsApiUrl (some "https://api.example.com") ≠
      "https://api.example.com" ++ "/api/posts" ∧
    Api.postsApiUrl (some "https://api.example.com") =
      "http://localhost:3000/api/posts" := by
  constructor
  · decide
  · rfl

/-- Claim C5 (amended): the user-by-id request takes its base URL from the
`VITE_API_URL` configuration value with the fixed default
`http://localhost:3000` when unset (or empty); the posts request does not
consult the configuration and always targets the hardcoded
`http://localhost:3000/api/posts`. -/
theorem c5_base_url (v : Option String) (uid : Nat) :
    (Api.userApiUrl v uid =
      Api.resolveApiUrl v ++ "/api/user/" ++ toString uid) ∧
    (Api.userApiUrl none uid =
      "http://localhost:3000/api/user/" ++ toString uid) ∧
    (∀ u : String, ¬u = "" →
      Api.userApiUrl (some u) uid = u ++ "/api/user/" ++ toString uid) ∧
    (Api.userApiUrl (some "") uid =
      "http://localhost:3000/api/user/" ++ toString uid) ∧
    (Api.postsApiUrl v = "http://localhost:3000/api/posts") := by
  refine ⟨rfl, rfl, ?_, rfl, rfl⟩
  intro u hu
  simp [Api.userApiUrl, Api.resolveApiUrl, hu]

/-- Claim C5 witness: with the configuration set, the user URL uses the
configured base while the posts URL stays hardcoded. -/
theorem c5_base_url_witness :
    Api.userApiUrl (some "https://api.example.com") 1 =
      "https://api.example.com" ++ "/api/user/" ++ toString 1 ∧
    Api.postsApiUrl (some "https://api.example.com") =
      "http://localhost:3000/api/posts" :=
  ⟨(c5_base_url (some "https://api.example.com") 1).2.2.1
      "https://api.example.com" (by decide),
   (c5_base_url (some "https://api.example.com") 1).2.2.2.2⟩

/-- Claim C6 counterexample: the claim says a successful `fetchUser` returns
the server's payload raw, with `fetchedAt` the ISO-8601 string the server
sent, unmodified; on a 2xx response with a valid ISO `fetchedAt`, the
returned `fetchedAt` is the locale time string, not the server's string. -/
theorem c6_counterexample :
    userRespC6.ok = true ∧
    Api.fetchUser dateEnv0 2 userRespC6 =
      Except.ok ({ userRespC6.body with fetchedAt := "1:00:00 PM" }, false) ∧
    "1:00:00 PM" ≠ userRespC6.body.fetchedAt := by
  refine ⟨rfl, rfl, ?_⟩
  decide

/-- Claim C6 (amended): on a successful fetch, `fetchUser` returns the
server's payload with `id`, `name` and `email` unmodified, but rewrites
`fetchedAt` to the locale time string of the parsed date whenever the
server's `fetchedAt` is non-empty and parses as a valid date. -/
theorem c6_fetchedAt_converted (env : Api.DateEnv) (uid : Nat)
    (ru : Api.HttpResponse Api.User) (t : Int) (hok : ru.ok = true)
    (hne : ¬ru.body.fetchedAt = "")
    (hp : env.parse ru.body.fetchedAt = some t) :
    Api.fetchUser env uid ru =
      Except.ok ({ ru.body with fetchedAt := env.toLocaleTimeString t }, false) := by
  simp [Api.fetchUser, hok, hne, hp]

/-- Claim C6 witness: the concrete valid-timestamp response comes back with
`fetchedAt` converted to `1:00:00 PM`. -/
theorem c6_fetchedAt_converted_witness :
    Api.fetchUser dateEnv0 2 userRespC6 =
      Except.ok
        ({ userRespC6.body with
            fetchedAt := dateEnv0.toLocaleTimeString 1704110400 }, false) :=
  c6_fetchedAt_converted dateEnv0 2 userRespC6 1704110400 rfl (by decide) rfl

/-- Claim C7 counterexample: the claim says every 2xx user response whose
`fetchedAt` does not parse as a valid date gets a logged warning; for a 2xx
response whose `fetchedAt` is the empty string (which does not parse as a
valid date), the truthiness guard skips the conversion branch entirely, so
the record is passed through with no warning logged. -/
theorem c7_counterexample :
    userRespEmptyTs.ok = true ∧
    dateEnv0.parse userRespEmptyTs.body.fetchedAt = none ∧
    Api.fetchUser dateEnv0 3 userRespEmptyTs =
      Except.ok (userRespEmptyTs.body, false) :=
  ⟨rfl, rfl, rfl⟩

/-- Claim C7 (amended): for every 2xx user response whose `fetchedAt` is
non-empty and does not parse as a valid date, `fetchUser` logs a warning and
returns the record with `fetchedAt` passed through unmodified; a malformed
timestamp never causes the request to fail (an empty `fetchedAt` is also
passed through without failing, but without a warning). -/
theorem c7_invalid_timestamp_nonfatal (env : Api.DateEnv) (uid : Nat)
    (ru : Api.HttpResponse Api.User) (hok : ru.ok = true)
    (hne : ¬ru.body.fetchedAt = "")
    (hp : env.parse ru.body.fetchedAt = none) :
    Api.fetchUser env uid ru = Except.ok (ru.body, true) := by
  simp [Api.fetchUser, hok, hne, hp]

/-- Claim C7 witness: a 2xx response with `fetchedAt = "not-a-date"` comes
back unmodified, with the warning flag set and no failure. -/
theorem c7_invalid_timestamp_nonfatal_witness :
    Api.fetchUser dateEnv0 4 userRespBadTs =
      Except.ok (userRespBadTs.body, true) :=
  c7_invalid_timestamp_nonfatal dateEnv0 4 userRespBadTs rfl (by decide) rfl

open Coordinator in
/-- Claim C9: the `isFetching` flag exposed to the display layer is true
exactly while the key's cache entry has status Fetching, and the
`CacheStatus` component renders the fetching indicator when `isFetching` is
true and the served-from-cache indicator otherwise. -/
theorem c9_isFetching_indicator {α ε : Type} (s : CoordState α ε)
    (k : ResourceKey) (b : Bool) :
    (View.isFetching s k = true ↔
      ((Coordinator.get s k).getD emptyEntry).status = Status.fetching) ∧
    (View.CacheStatus b = View.Indicator.fetchingFresh ↔ b = true) ∧
    (View.CacheStatus b = View.Indicator.servedFromCache ↔ b = false) := by
  refine ⟨?_, ?_, ?_⟩
  · simp [View.isFetching]
  · cases b <;> simp [View.CacheStatus]
  · cases b <;> simp [View.CacheStatus]

/-- Claim C10: `FetchDataReactQuery` renders the posts section (count header
and per-post cards) exactly when `data` is defined and non-empty; a
successful fetch of an empty array renders no posts section, and a
non-empty list renders the section with its length as the count and one
card per post. -/
theorem c10_posts_section_iff (data : Option (List Api.Post)) :
    (View.renderPostsSection data ≠ none ↔ ∃ l, data = some l ∧ l ≠ []) ∧
    View.renderPostsSection (some []) = none ∧
    (∀ p ps, View.renderPostsSection (some (p :: ps)) =
      some ⟨(p :: ps).length, p :: ps⟩) := by
  refine ⟨?_, rfl, ?_⟩
  · cases data with
    | none => simp [View.renderPostsSection, View.hasPosts]
    | some l =>
        cases l with
        | nil => simp [View.renderPostsSection, View.hasPosts]
        | cons p ps => simp [View.renderPostsSection, View.hasPosts]
  · intro p ps
    simp [View.renderPostsSection, View.hasPosts]

end ReactQueryDemo
